import Mathlib

/-!
# Verification of the personal_investments trading core

Shallow embedding of the repository's signal/decision engine and backtest
execution + metrics engine, with theorems checking the natural-language
specification against the code.

Conventions of the embedding:
* Python floats are modelled as exact rationals (`ℚ`).
* `collections.deque(maxlen=c)` is modelled as a `List ℚ` together with the
  capacity-respecting push `pushMax`.
* Python `datetime` timestamps are modelled as a `Nat` hour counter
  (`current_time`); the bot only ever advances it by one hour per hold tick.
* Fallible Python code (raised exceptions) is modelled with `Except String`.
-/

set_option maxHeartbeats 1000000

namespace PersonalInvestments

/-! ## Bounded price window (`collections.deque(maxlen:=cap)`)

`Mark2.__init__` (src/Trading/Procesos/Bots/bot_mark2.py line 13) creates
`self.prices = deque(maxlen=100)`. Appending to a full deque evicts the
oldest element. -/

/-- Append `p` to `l`, evicting from the front whatever exceeds capacity
`cap` (the semantics of `deque.append` with `maxlen := cap`). -/
def pushMax (cap : Nat) (l : List ℚ) (p : ℚ) : List ℚ :=
  let l' := l ++ [p]
  if cap < l'.length then l'.drop (l'.length - cap) else l'

/-! ## The Mark2 bot (src/Trading/Procesos/Bots/bot_mark2.py) -/

/-- One entry of `historial_operaciones`, as built by
`Mark2.registrar_operacion`.  The `Fecha` string is modelled by the `Nat`
hour counter. -/
structure Operacion where
  fecha : Nat
  operacion : String
  precio : ℚ
  cantidad : ℚ
  budget : ℚ
  crypto : ℚ
  ganancia_perdida_no_realizada : ℚ
  ganancia_perdida_acumulada : ℚ
deriving Repr, DecidableEq

/-- State of a `Mark2` bot instance (its `self` fields).  The
`ganancia_perdida_acumulada` field is set to 0 in `__init__` and never
reassigned by the class (the variable of the same name inside
`registrar_operacion` is a local). -/
structure Mark2 where
  budget_inicial : ℚ
  budget : ℚ
  crypto_balance : ℚ
  prices : List ℚ
  last_action : Option String
  ganancia_perdida_acumulada : ℚ
  historial_operaciones : List Operacion
  precio_compra : Option ℚ
  current_time : Nat
deriving Repr, DecidableEq

/-- `Mark2.__init__(budget)`; the simulation clock starts at hour 0. -/
def Mark2.init (budget : ℚ) : Mark2 :=
  { budget_inicial := budget
    budget := budget
    crypto_balance := 0
    prices := []
    last_action := none
    ganancia_perdida_acumulada := 0
    historial_operaciones := []
    precio_compra := none
    current_time := 0 }

/-- `Mark2.agregar_precio`: appends the current price to the bounded
history (deque of capacity 100). -/
def Mark2.agregar_precio (s : Mark2) (precio : ℚ) : Mark2 :=
  { s with prices := pushMax 100 s.prices precio }

/-- Python's `list(prices)[-n:]` for the fixed positive periods used by the
bot: the last `n` elements of `l`. -/
def takeLast (n : Nat) (l : List ℚ) : List ℚ :=
  l.drop (l.length - n)

/-- `Mark2.calcular_media_movil(periodos)`: arithmetic mean of the last
`periodos` prices, `none` if fewer are held. -/
def Mark2.calcular_media_movil (s : Mark2) (periodos : Nat) : Option ℚ :=
  if s.prices.length < periodos then none
  else some ((takeLast periodos s.prices).sum / (periodos : ℚ))

/-- `Mark2.calcular_media_movil_prev(periodos)`: mean of the last
`periodos` prices excluding the newest one, `none` if fewer than
`periodos + 1` are held. -/
def Mark2.calcular_media_movil_prev (s : Mark2) (periodos : Nat) : Option ℚ :=
  if s.prices.length < periodos + 1 then none
  else some ((takeLast periodos s.prices.dropLast).sum / (periodos : ℚ))

/-- `Mark2.registrar_operacion`: appends an operation record; the snapshot
fields read the already-mutated `budget`/`crypto_balance`. -/
def Mark2.registrar_operacion (s : Mark2) (operacion : String)
    (precio cantidad : ℚ) : Mark2 :=
  let gpnr := s.crypto_balance * precio
  let gpa := s.budget + gpnr - s.budget_inicial
  { s with historial_operaciones := s.historial_operaciones ++
      [{ fecha := s.current_time
         operacion := operacion
         precio := precio
         cantidad := cantidad
         budget := s.budget
         crypto := s.crypto_balance
         ganancia_perdida_no_realizada := gpnr
         ganancia_perdida_acumulada := gpa }] }

/-- `Mark2.tomar_decision(precio_actual)`: the decision state machine.
Rules in source order; the first guard that holds fires and returns.  The
`is None` guard of the source is the leading disjunction; after it, the
option values are dereferenced (`getD 0` is never the default case because
of the guard).  Hold paths advance the simulation clock by one hour (the
`current_time` truthiness test of the source is always true: the field is
always a datetime). -/
def Mark2.tomar_decision (s : Mark2) (precio_actual : ℚ) : Mark2 :=
  let mm_corto := s.calcular_media_movil 7
  let mm_mediano := s.calcular_media_movil 25
  let mm_largo := s.calcular_media_movil 100
  let mm_mediano_prev := s.calcular_media_movil_prev 25
  let mm_largo_prev := s.calcular_media_movil_prev 100
  if mm_corto = none ∨ mm_mediano = none ∨ mm_largo = none
      ∨ mm_mediano_prev = none ∨ mm_largo_prev = none then
    { s with current_time := s.current_time + 1 }
  else
    let c := mm_corto.getD 0
    let m := mm_mediano.getD 0
    let l := mm_largo.getD 0
    let mp := mm_mediano_prev.getD 0
    let lp := mm_largo_prev.getD 0
    if m > l ∧ mp < lp ∧ s.budget > 0 then
      -- Compra el restante del budget
      let cantidad_comprada := s.budget / precio_actual
      let s1 := { s with precio_compra := some precio_actual
                         crypto_balance := s.crypto_balance + cantidad_comprada
                         last_action := some "buy"
                         budget := 0 }
      s1.registrar_operacion "Compra (100%)" precio_actual cantidad_comprada
    else if c > l ∧ m > l ∧ c > m ∧ s.budget > 0 then
      -- Compra el 100% del budget
      let cantidad_comprada := s.budget / precio_actual
      let s1 := { s with precio_compra := some precio_actual
                         crypto_balance := s.crypto_balance + cantidad_comprada
                         last_action := some "buy"
                         budget := 0 }
      s1.registrar_operacion "Compra (100%)" precio_actual cantidad_comprada
    else if c < l ∧ m < l ∧ c > m ∧ mp < lp ∧ s.budget > 0
        ∧ s.last_action ≠ some "buy-50" then
      -- Compra 50% del budget
      let cantidad_comprada := s.budget * (1 / 2) / precio_actual
      let s1 := { s with precio_compra := some precio_actual
                         crypto_balance := s.crypto_balance + cantidad_comprada
                         last_action := some "buy-50"
                         budget := s.budget * (1 / 2) }
      s1.registrar_operacion "Compra (50%)" precio_actual cantidad_comprada
    else if c < l ∧ m < l ∧ c < m ∧ s.crypto_balance > 0 then
      -- Vender el 100% del saldo en cripto
      let valor_venta := s.crypto_balance * precio_actual
      let cantidad_vendida := s.crypto_balance
      let s1 := { s with budget := s.budget + valor_venta
                         last_action := some "sell"
                         crypto_balance := 0 }
      s1.registrar_operacion "Venta (100%)" precio_actual cantidad_vendida
    else if m < l ∧ mp > lp ∧ s.crypto_balance > 0 then
      -- Vender el 100% del saldo en cripto
      let valor_venta := s.crypto_balance * precio_actual
      let cantidad_vendida := s.crypto_balance
      let s1 := { s with budget := s.budget + valor_venta
                         last_action := some "sell"
                         crypto_balance := 0 }
      s1.registrar_operacion "Venta (100%)" precio_actual cantidad_vendida
    else if c > l ∧ m > l ∧ c < m ∧ mp > lp ∧ s.crypto_balance > 0
        ∧ s.last_action ≠ some "sell-50" then
      -- Vender el 50% del saldo en cripto
      let cantidad_vendida := s.crypto_balance * (1 / 2)
      let valor_venta := cantidad_vendida * precio_actual
      let s1 := { s with budget := s.budget + valor_venta
                         last_action := some "sell-50"
                         crypto_balance := s.crypto_balance * (1 / 2) }
      s1.registrar_operacion "Venta (50%)" precio_actual cantidad_vendida
    else
      { s with current_time := s.current_time + 1 }

/-- The driver loop used by the repository's scripts (e.g.
`prueba bot.py`): for each price, `agregar_precio` then `tomar_decision`. -/
def Mark2.runBot (budget : ℚ) (xs : List ℚ) : Mark2 :=
  xs.foldl (fun s p => (s.agregar_precio p).tomar_decision p) (Mark2.init budget)

/-! ## RSI (src/Trading/Procesos/Bots/rsi.py) -/

/-- The module-level example price list of rsi.py. -/
def precios : List ℚ :=
  [100, 102, 101, 104, 103, 105, 106, 107, 106, 108, 110, 109, 111, 112]

/-- The `cambios` list of `calcular_rsi`: consecutive price deltas
`lista[i] - lista[i-1]`. -/
def cambiosDe (lista : List ℚ) : List ℚ :=
  List.zipWith (fun a b => a - b) lista.tail lista

/-- `calcular_rsi(lista)`.  The source also builds `ganancias`/`perdidas`
lists that are never read afterwards; they are omitted.  When
`promedio_perdidas == 0` the source sets `rs = float('inf')`, and
`100 - 100/(1 + inf)` evaluates to `100.0` in float arithmetic; that branch
is embedded as the constant 100. -/
def calcular_rsi (lista : List ℚ) : ℚ :=
  let cambios := cambiosDe lista
  let promedio_ganancias :=
    (cambios.map fun x => if x > 0 then x else 0).sum / (lista.length : ℚ)
  let promedio_perdidas :=
    (cambios.map fun x => if x < 0 then -x else 0).sum / (lista.length : ℚ)
  if promedio_perdidas ≠ 0 then
    let rs := promedio_ganancias / promedio_perdidas
    100 - 100 / (1 + rs)
  else 100

/-- Modelled from the spec (§4.2): the RSI formula as the specification
states it, with `N` = the number of deltas in the denominator of both
averages, and result 100 when the average loss is zero (infinite RS).
Used only to compare against `calcular_rsi`. -/
def rsiSpecFormula (lista : List ℚ) : ℚ :=
  let cambios := cambiosDe lista
  let n : ℚ := (cambios.length : ℚ)
  let avg_gain := (cambios.map fun x => if x > 0 then x else 0).sum / n
  let avg_loss := (cambios.map fun x => if x < 0 then -x else 0).sum / n
  if avg_loss = 0 then 100 else 100 - 100 / (1 + avg_gain / avg_loss)

/-! ## Backtester (src/copilot/backtest/backtester.py) -/

/-- One row of the signals DataFrame: `close_price` and the `signal`
column (-1, 0 or 1).  The `open_time` timestamp column is not read by any
computation modelled here and is omitted. -/
structure Row where
  close_price : ℚ
  signal : Int
deriving Repr, DecidableEq

/-- One trade dict appended by `_execute_backtest`; the `timestamp` key is
omitted (not read by any modelled computation). -/
structure Trade where
  type : String
  price : ℚ
  balance : ℚ
  crypto_balance : ℚ
deriving Repr, DecidableEq

/-- The configuration fields read by `Backtester.__init__`, with the
source's `config.get` defaults. -/
structure BTConfig where
  initial_balance : ℚ := 10000
  commission : ℚ := 1 / 1000
  slippage : ℚ := 1 / 2000
deriving Repr, DecidableEq

/-- The loop state of `_execute_backtest`: `balance`, `crypto_balance`,
`position` (0 flat, 1 long), the trades list and the equity curve. -/
structure ExecState where
  balance : ℚ
  crypto_balance : ℚ
  position : Nat
  trades : List Trade
  equity_curve : List ℚ
deriving Repr, DecidableEq

/-- One iteration of the `for idx, row in df.iterrows()` loop of
`_execute_backtest`: append pre-trade equity, then act on the signal. -/
def btStep (cfg : BTConfig) (st : ExecState) (row : Row) : ExecState :=
  let current_equity :=
    if st.position = 1 then st.crypto_balance * row.close_price else st.balance
  let st := { st with equity_curve := st.equity_curve ++ [current_equity] }
  if row.signal = 1 ∧ st.position = 0 then
    if st.balance > 0 then
      let execution_price := row.close_price * (1 + cfg.slippage)
      let crypto := st.balance * (1 - cfg.commission) / execution_price
      { st with
        trades := st.trades ++
          [{ type := "buy", price := execution_price,
             balance := st.balance, crypto_balance := crypto }]
        balance := 0
        crypto_balance := crypto
        position := 1 }
    else st
  else if row.signal = -1 ∧ st.position = 1 then
    if st.crypto_balance > 0 then
      let execution_price := row.close_price * (1 - cfg.slippage)
      let new_balance := st.crypto_balance * execution_price * (1 - cfg.commission)
      { st with
        trades := st.trades ++
          [{ type := "sell", price := execution_price,
             balance := new_balance, crypto_balance := st.crypto_balance }]
        balance := new_balance
        crypto_balance := 0
        position := 0 }
    else st
  else st

/-- `df.iloc[-1]['close_price']` (only evaluated on a nonempty df). -/
def lastClose (df : List Row) : ℚ :=
  (df.getLast?.map Row.close_price).getD 0

/-- The result dict of `_execute_backtest`.  The nested `metrics` dict
(computed by `PerformanceMetrics.calculate_metrics`) is not read by any
claim modelled here and is omitted. -/
structure BTResult where
  initial_balance : ℚ
  final_balance : ℚ
  profit_loss : ℚ
  profit_loss_pct : ℚ
  num_trades : Nat
  trades : List Trade
  equity_curve : List ℚ
deriving Repr, DecidableEq

/-- The initial loop state of `_execute_backtest`. -/
def btInit (cfg : BTConfig) : ExecState :=
  { balance := cfg.initial_balance
    crypto_balance := 0
    position := 0
    trades := []
    equity_curve := [] }

/-- The tail of `_execute_backtest` after the row loop: force-close an
open position at the last close price, then assemble the result dict.
Note the source does not reset the local `crypto_balance` in the
force-close branch (the variable is not read again). -/
def btFinish (cfg : BTConfig) (df : List Row) (st : ExecState) : BTResult :=
  let st :=
    if st.position = 1 then
      let final_price := lastClose df * (1 - cfg.slippage)
      let new_balance := st.crypto_balance * final_price * (1 - cfg.commission)
      { st with
        balance := new_balance
        trades := st.trades ++
          [{ type := "sell", price := final_price,
             balance := new_balance, crypto_balance := st.crypto_balance }] }
    else st
  { initial_balance := cfg.initial_balance
    final_balance := st.balance
    profit_loss := st.balance - cfg.initial_balance
    profit_loss_pct := (st.balance - cfg.initial_balance) / cfg.initial_balance * 100
    num_trades := st.trades.length
    trades := st.trades
    equity_curve := st.equity_curve }

/-- `Backtester._execute_backtest(df)`. -/
def execute_backtest (cfg : BTConfig) (df : List Row) : BTResult :=
  btFinish cfg df (df.foldl (btStep cfg) (btInit cfg))

/-- A strategy's `generate_signals`: from a market-data frame to a signals
frame, possibly raising (`Except.error`). -/
def Strategy : Type := List Row → Except String (List Row)

/-- The `Backtester` object: its configuration plus the `strategy`/`data`
slots set by `set_strategy`/`load_data`. -/
structure Backtester where
  config : BTConfig
  strategy : Option Strategy
  data : Option (List Row)

/-- `Backtester.__init__(config)`: strategy and data start unset. -/
def Backtester.create (config : BTConfig) : Backtester :=
  { config := config, strategy := none, data := none }

/-- `Backtester.load_data(df)`: raises on an empty DataFrame, else stores
a copy. -/
def Backtester.load_data (b : Backtester) (df : List Row) :
    Except String Backtester :=
  if df.isEmpty then Except.error "Cannot load empty DataFrame"
  else Except.ok { b with data := some df }

/-- `Backtester.run(df, strategy)`.  Exceptions propagate as
`Except.error`; the mutation of `self.results` is not observable through
the return value and is not modelled. -/
def Backtester.run (b : Backtester) (df : Option (List Row))
    (strategy : Option Strategy) : Except String BTResult :=
  let loaded : Except String Backtester :=
    match df with
    | some d => b.load_data d
    | none => Except.ok b
  match loaded with
  | Except.error e => Except.error e
  | Except.ok b1 =>
    let b2 : Backtester :=
      match strategy with
      | some st => { b1 with strategy := some st }
      | none => b1
    match b2.strategy with
    | none => Except.error "Strategy not set"
    | some strat =>
      match b2.data with
      | none => Except.error "Data not loaded"
      | some data =>
        match strat data with
        | Except.error e => Except.error ("Failed to generate signals: " ++ e)
        | Except.ok signals_df => Except.ok (execute_backtest b.config signals_df)

/-- A strategy that raises no exception and passes the data frame through
as the signals frame (concrete instance for the theorems below). -/
def passSignals : Strategy := fun df => Except.ok df

/-! ## PerformanceMetrics (src/copilot/backtest/metrics.py) -/

/-- The even-index pairing loop shared by `calculate_win_rate` and
`calculate_profit_factor`: `for i in range(0, len(trades) - 1, 2)` pairs
elements (0,1), (2,3), ...; a trailing unpaired element is skipped. -/
def tradePairs : List Trade → List (Trade × Trade)
  | b :: s :: rest => (b, s) :: tradePairs rest
  | _ => []

/-- The accumulator loop of `calculate_profit_factor`: gross profit and
gross loss over the even-index pairs that look like a buy followed by a
sell. -/
def pfLoop : ℚ → ℚ → List Trade → ℚ × ℚ
  | gross_profit, gross_loss, b :: s :: rest =>
    if b.type = "buy" ∧ s.type = "sell" then
      let pnl := s.balance - b.balance
      if pnl > 0 then pfLoop (gross_profit + pnl) gross_loss rest
      else pfLoop gross_profit (gross_loss + |pnl|) rest
    else pfLoop gross_profit gross_loss rest
  | gross_profit, gross_loss, _ => (gross_profit, gross_loss)

/-- `PerformanceMetrics.calculate_profit_factor(trades)`. -/
def calculate_profit_factor (trades : List Trade) : ℚ :=
  if trades.length < 2 then 0
  else
    let gp := (pfLoop 0 0 trades).1
    let gl := (pfLoop 0 0 trades).2
    if gl > 0 then gp / gl else 0

/-- The profit-and-loss of each buy→sell round-trip pair, in pairing
order (specification-side view of the metrics loops). -/
def roundTripPnls (trades : List Trade) : List ℚ :=
  (tradePairs trades).filterMap fun p =>
    if p.1.type = "buy" ∧ p.2.type = "sell" then
      some (p.2.balance - p.1.balance)
    else none

/-- Gross profit over round-trip pairs, as the spec states it. -/
def grossProfitSpec (trades : List Trade) : ℚ :=
  ((roundTripPnls trades).map fun x => max x 0).sum

/-- Gross loss over round-trip pairs, as the spec states it. -/
def grossLossSpec (trades : List Trade) : ℚ :=
  ((roundTripPnls trades).map fun x => max (-x) 0).sum

/-- Alternation checker: `altKinds true tr` holds when `tr` reads
buy, sell, buy, sell, ... from the front. -/
def altKinds : Bool → List Trade → Bool
  | _, [] => true
  | b, t :: ts => (t.type = if b then "buy" else "sell") && altKinds (!b) ts

/-! ## Concrete instances used by witnesses -/

/-- A zero-cost configuration with initial balance 100. -/
def cfg0 : BTConfig := { initial_balance := 100, commission := 0, slippage := 0 }

/-- A one-row frame whose single signal is a buy. -/
def dfBuy : List Row := [{ close_price := 10, signal := 1 }]

/-- A two-row frame with a buy at 10 then a sell at 20. -/
def dfBuySell : List Row :=
  [{ close_price := 10, signal := 1 }, { close_price := 20, signal := -1 }]

/-- An invalid configuration: negative commission, slippage above 1. -/
def badConfig : BTConfig :=
  { initial_balance := 10000, commission := -(1 / 2), slippage := 3 / 2 }

/-! ## Window lemmas -/

lemma pushMax_eq_drop (cap : Nat) (l : List ℚ) (p : ℚ) :
    pushMax cap l p = (l ++ [p]).drop (l.length + 1 - cap) := by
  simp only [pushMax, List.length_append, List.length_singleton]
  split
  · rfl
  · next h =>
      have h0 : l.length + 1 - cap = 0 := by omega
      rw [h0, List.drop_zero]

lemma pushMax_length_le (cap : Nat) (l : List ℚ) (p : ℚ) :
    (pushMax cap l p).length ≤ max cap (l.length + 1) := by
  rw [pushMax_eq_drop, List.length_drop]
  simp only [List.length_append, List.length_singleton]
  omega

lemma foldl_pushMax (cap : Nat) (xs : List ℚ) :
    ∀ l : List ℚ, l.length ≤ cap →
      xs.foldl (pushMax cap) l = (l ++ xs).drop (l.length + xs.length - cap) := by
  induction xs with
  | nil =>
      intro l hl
      simp only [List.foldl_nil, List.append_nil, List.length_nil]
      have h0 : l.length + 0 - cap = 0 := by omega
      rw [h0, List.drop_zero]
  | cons x xs ih =>
      intro l hl
      have hlen : (pushMax cap l x).length ≤ cap := by
        rw [pushMax_eq_drop, List.length_drop]
        simp only [List.length_append, List.length_singleton]
        omega
      rw [List.foldl_cons, ih (pushMax cap l x) hlen, pushMax_eq_drop]
      have hd1 : l.length + 1 - cap ≤ (l ++ [x]).length := by
        simp only [List.length_append, List.length_singleton]; omega
      rw [(List.drop_append_of_le_length hd1).symm, List.drop_drop,
        List.append_assoc, List.singleton_append, List.length_drop]
      congr 1
      simp only [List.length_append, List.length_singleton, List.length_cons,
        List.length_nil]
      omega

lemma foldl_agregar_prices (xs : List ℚ) :
    ∀ s : Mark2, (xs.foldl Mark2.agregar_precio s).prices
      = xs.foldl (pushMax 100) s.prices := by
  induction xs with
  | nil => intro s; rfl
  | cons x xs ih =>
      intro s
      rw [List.foldl_cons, List.foldl_cons, ih]
      rfl

/-- C8: pushing `n` prices into the `Mark2` price window leaves exactly the
most recent `min n 100` of them, in arrival order: the window is the suffix
of the pushed sequence, the oldest prices having been evicted FIFO. -/
theorem mark2_price_window_fifo (budget : ℚ) (xs : List ℚ) :
    (xs.foldl Mark2.agregar_precio (Mark2.init budget)).prices
        = xs.drop (xs.length - 100)
      ∧ (xs.foldl Mark2.agregar_precio (Mark2.init budget)).prices.length
        = min xs.length 100 := by
  have h := foldl_agregar_prices xs (Mark2.init budget)
  have h2 := foldl_pushMax 100 xs [] (by simp)
  simp only [List.nil_append, List.length_nil, Nat.zero_add] at h2
  have hmain : (xs.foldl Mark2.agregar_precio (Mark2.init budget)).prices
      = xs.drop (xs.length - 100) := by
    rw [h]; exact h2
  refine ⟨hmain, ?_⟩
  rw [hmain, List.length_drop]
  omega

/-! ## Mark2 hold lemmas: the 100-period previous moving average is never
available, because the deque holds at most 100 prices while
`calcular_media_movil_prev(100)` requires 101. -/

lemma mm_largo_prev_none (s : Mark2) (h : s.prices.length ≤ 100) :
    s.calcular_media_movil_prev 100 = none := by
  unfold Mark2.calcular_media_movil_prev
  rw [if_pos]
  omega

lemma tomar_decision_hold (s : Mark2) (p : ℚ) (h : s.prices.length ≤ 100) :
    s.tomar_decision p = { s with current_time := s.current_time + 1 } := by
  have h100 := mm_largo_prev_none s h
  simp only [Mark2.tomar_decision, h100]
  simp

/-- C6: a decision tick on which some required moving average is absent
(fewer prices held than the longest period plus one) is a no-op hold:
budget, crypto balance, last action and the operation history are
unchanged (`tomar_decision` is a total function: no error escapes). -/
theorem mark2_unready_tick_noop (s : Mark2) (p : ℚ)
    (h : s.prices.length < 100 + 1) :
    (s.tomar_decision p).budget = s.budget
      ∧ (s.tomar_decision p).crypto_balance = s.crypto_balance
      ∧ (s.tomar_decision p).last_action = s.last_action
      ∧ (s.tomar_decision p).historial_operaciones = s.historial_operaciones := by
  rw [tomar_decision_hold s p (by omega)]
  exact ⟨rfl, rfl, rfl, rfl⟩

/-- Witness for `mark2_unready_tick_noop` at a freshly initialised bot and
price 5. -/
theorem mark2_unready_tick_noop_witness :
    (Mark2.init 1000).prices.length < 100 + 1
      ∧ (((Mark2.init 1000).tomar_decision 5).budget = (Mark2.init 1000).budget
        ∧ ((Mark2.init 1000).tomar_decision 5).crypto_balance
            = (Mark2.init 1000).crypto_balance
        ∧ ((Mark2.init 1000).tomar_decision 5).last_action
            = (Mark2.init 1000).last_action
        ∧ ((Mark2.init 1000).tomar_decision 5).historial_operaciones
            = (Mark2.init 1000).historial_operaciones) :=
  ⟨by decide, mark2_unready_tick_noop (Mark2.init 1000) 5 (by decide)⟩

lemma runBot_fold (xs : List ℚ) :
    ∀ s : Mark2, s.prices.length ≤ 100 →
      (xs.foldl (fun s p => (s.agregar_precio p).tomar_decision p) s).budget
          = s.budget
        ∧ (xs.foldl (fun s p => (s.agregar_precio p).tomar_decision p) s).crypto_balance
          = s.crypto_balance
        ∧ (xs.foldl (fun s p => (s.agregar_precio p).tomar_decision p) s).last_action
          = s.last_action
        ∧ (xs.foldl (fun s p => (s.agregar_precio p).tomar_decision p) s).historial_operaciones
          = s.historial_operaciones := by
  induction xs with
  | nil => intro s _; exact ⟨rfl, rfl, rfl, rfl⟩
  | cons x xs ih =>
      intro s hs
      have hlen : ((s.agregar_precio x).prices).length ≤ 100 := by
        show (pushMax 100 s.prices x).length ≤ 100
        rw [pushMax_eq_drop, List.length_drop]
        simp only [List.length_append, List.length_singleton]
        omega
      rw [List.foldl_cons, tomar_decision_hold _ _ hlen]
      exact ih _ (by simpa using hlen)

/-- C3 (code bug): the `Mark2` decision rules are unreachable.  The price
deque holds at most 100 prices, while `calcular_media_movil_prev(100)`
demands 101, so the long previous moving average is always `None` and
every tick holds: over every price sequence — in particular one driving
the medium moving average from below to above the long one — the bot's
budget stays at its initial value, no crypto is ever bought, no action is
recorded and the ledger stays empty.  The golden-cross full buy never
fires, against the claim that it fires exactly once on a crossover. -/
theorem mark2_golden_cross_never_fires (budget : ℚ) (xs : List ℚ) :
    (Mark2.runBot budget xs).budget = budget
      ∧ (Mark2.runBot budget xs).crypto_balance = 0
      ∧ (Mark2.runBot budget xs).last_action = none
      ∧ (Mark2.runBot budget xs).historial_operaciones = [] := by
  simp only [Mark2.runBot]
  exact runBot_fold xs (Mark2.init budget) (by simp [Mark2.init])

/-- C9: every decision tick at a positive price preserves mark-to-market
equity: `budget + crypto_balance * price` is unchanged by whichever rule
fires (full buy, half buy, full sell, half sell) and by a hold, and the
budget and crypto balance stay non-negative. -/
theorem mark2_tick_preserves_equity (s : Mark2) (p : ℚ)
    (hp : 0 < p) (hb : 0 ≤ s.budget) (hc : 0 ≤ s.crypto_balance) :
    (s.tomar_decision p).budget + (s.tomar_decision p).crypto_balance * p
        = s.budget + s.crypto_balance * p
      ∧ 0 ≤ (s.tomar_decision p).budget
      ∧ 0 ≤ (s.tomar_decision p).crypto_balance := by
  have hp' : p ≠ 0 := ne_of_gt hp
  have hdiv : 0 ≤ s.budget / p := div_nonneg hb hp.le
  have hdiv2 : 0 ≤ s.budget * (1 / 2) / p := div_nonneg (by linarith) hp.le
  have hcp : 0 ≤ s.crypto_balance * p := mul_nonneg hc hp.le
  simp only [Mark2.tomar_decision, Mark2.registrar_operacion]
  split_ifs with h0 h1 h2 h3 h4 h5 h6
  all_goals dsimp only
  · exact ⟨rfl, hb, hc⟩
  · -- golden-cross full buy
    refine ⟨?_, le_refl 0, by linarith⟩
    field_simp
    ring
  · -- trend-aligned full buy
    refine ⟨?_, le_refl 0, by linarith⟩
    field_simp
    ring
  · -- early-trend half buy
    refine ⟨?_, by linarith, by linarith⟩
    field_simp
    ring
  · -- downtrend full sell
    exact ⟨by ring, by linarith, le_refl 0⟩
  · -- death-cross full sell
    exact ⟨by ring, by linarith, le_refl 0⟩
  · -- early-downtrend half sell
    refine ⟨by ring, ?_, by linarith⟩
    nlinarith
  · exact ⟨rfl, hb, hc⟩

/-- Witness for `mark2_tick_preserves_equity` at a fresh bot and price 3. -/
theorem mark2_tick_preserves_equity_witness :
    (0 : ℚ) < 3 ∧ (0 : ℚ) ≤ (Mark2.init 1000).budget
      ∧ (0 : ℚ) ≤ (Mark2.init 1000).crypto_balance
      ∧ (((Mark2.init 1000).tomar_decision 3).budget
            + ((Mark2.init 1000).tomar_decision 3).crypto_balance * 3
          = (Mark2.init 1000).budget + (Mark2.init 1000).crypto_balance * 3
        ∧ 0 ≤ ((Mark2.init 1000).tomar_decision 3).budget
        ∧ 0 ≤ ((Mark2.init 1000).tomar_decision 3).crypto_balance) :=
  ⟨by norm_num, by decide, by decide,
    mark2_tick_preserves_equity (Mark2.init 1000) 3 (by norm_num)
      (by decide) (by decide)⟩

/-! ## RSI lemmas -/

lemma cambiosDe_length (l : List ℚ) : (cambiosDe l).length = l.length - 1 := by
  rw [cambiosDe, List.length_zipWith, List.length_tail]
  omega

lemma sum_pos_of_exists_pos (l : List ℚ) (h0 : ∀ x ∈ l, 0 ≤ x)
    (hx : ∃ x ∈ l, 0 < x) : 0 < l.sum := by
  induction l with
  | nil => simp at hx
  | cons a l ih =>
      obtain ⟨x, hxm, hxp⟩ := hx
      rw [List.sum_cons]
      have hrest : ∀ y ∈ l, (0:ℚ) ≤ y := fun y hy => h0 y (List.mem_cons_of_mem _ hy)
      rcases List.mem_cons.mp hxm with rfl | hmem
      · have : (0:ℚ) ≤ l.sum := List.sum_nonneg hrest
        linarith
      · have ha : (0:ℚ) ≤ a := h0 a (List.mem_cons_self a l)
        have : (0:ℚ) < l.sum := ih hrest ⟨x, hmem, hxp⟩
        linarith

/-- C2: on every price list of length ≥ 2 with at least one strictly
negative delta, `calcular_rsi` returns the spec's formula
`100 − 100/(1+RS)` with `RS = avg_gain/avg_loss` and both averages
normalised by the number of deltas: the source divides by `len(lista)`
instead, but the normalisation cancels inside the ratio `RS`. -/
theorem calcular_rsi_matches_spec (lista : List ℚ) (hlen : 2 ≤ lista.length)
    (hneg : ∃ x ∈ cambiosDe lista, x < 0) :
    calcular_rsi lista = rsiSpecFormula lista := by
  have hPpos : 0 < ((cambiosDe lista).map fun x => if x < 0 then -x else 0).sum := by
    apply sum_pos_of_exists_pos
    · intro x hx
      simp only [List.mem_map] at hx
      obtain ⟨y, _, rfl⟩ := hx
      split_ifs with h
      · linarith
      · exact le_refl 0
    · obtain ⟨d, hd, hdneg⟩ := hneg
      refine ⟨-d, List.mem_map.mpr ⟨d, hd, by rw [if_pos hdneg]⟩, by linarith⟩
  have hL : ((lista.length : ℚ)) ≠ 0 := by
    have : 0 < lista.length := by omega
    exact_mod_cast Nat.pos_iff_ne_zero.mp this
  have hn : (((cambiosDe lista).length : ℚ)) ≠ 0 := by
    have : 0 < (cambiosDe lista).length := by rw [cambiosDe_length]; omega
    exact_mod_cast Nat.pos_iff_ne_zero.mp this
  have hP : ((cambiosDe lista).map fun x => if x < 0 then -x else 0).sum ≠ 0 :=
    ne_of_gt hPpos
  simp only [calcular_rsi, rsiSpecFormula]
  rw [if_pos (by exact div_ne_zero hP hL), if_neg (by exact div_ne_zero hP hn)]
  rw [div_div_div_cancel_right₀ hL, div_div_div_cancel_right₀ hn]

/-- Witness for `calcular_rsi_matches_spec` on the module-level example
price list of rsi.py. -/
theorem calcular_rsi_matches_spec_witness :
    2 ≤ precios.length ∧ calcular_rsi precios = rsiSpecFormula precios :=
  ⟨by decide, calcular_rsi_matches_spec precios (by decide)
    ⟨-1, by norm_num [cambiosDe, precios], by norm_num⟩⟩

/-! ## Backtester.run: no configuration validation -/

/-- C1 counterexample: with commission −1/2 (negative) and slippage 3/2
(≥ 1), `Backtester.run` on a valid one-row frame does not fail: it
executes the simulation and returns its result.  No `InvalidConfig`
rejection exists (the code never inspects the rates, and no exception of
that name is defined in the package). -/
theorem run_accepts_bad_rates_cex :
    Backtester.run (Backtester.create badConfig) (some dfBuy) (some passSignals)
      = Except.ok (execute_backtest badConfig dfBuy) := by
  rfl

/-- C1 amended: `Backtester.run` performs no commission/slippage
validation at all.  For every rate values — negative or ≥ 1 included — a
run with a nonempty data frame and a strategy whose signal generation
succeeds executes the simulation and returns its result; `run` fails only
for an empty frame, an unset strategy/data slot, or a signal-generation
failure. -/
theorem run_ignores_rates (ib c sl : ℚ) (f : Strategy) (df sdf : List Row)
    (hdf : df ≠ []) (hf : f df = Except.ok sdf) :
    Backtester.run
        (Backtester.create { initial_balance := ib, commission := c, slippage := sl })
        (some df) (some f)
      = Except.ok (execute_backtest
          { initial_balance := ib, commission := c, slippage := sl } sdf) := by
  cases df with
  | nil => exact absurd rfl hdf
  | cons r rs =>
      simp only [Backtester.run, Backtester.create, Backtester.load_data,
        List.isEmpty_cons, Bool.false_eq_true, if_false]
      rw [hf]

/-- Witness for `run_ignores_rates` at the invalid configuration. -/
theorem run_ignores_rates_witness :
    ([{ close_price := 5, signal := 1 }] : List Row) ≠ []
      ∧ passSignals [{ close_price := 5, signal := 1 }]
          = Except.ok [{ close_price := 5, signal := 1 }]
      ∧ Backtester.run (Backtester.create
            { initial_balance := 10000, commission := -(1 / 2), slippage := 3 / 2 })
          (some [{ close_price := 5, signal := 1 }]) (some passSignals)
        = Except.ok (execute_backtest
            { initial_balance := 10000, commission := -(1 / 2), slippage := 3 / 2 }
            [{ close_price := 5, signal := 1 }]) :=
  ⟨by simp, rfl,
    run_ignores_rates 10000 (-(1 / 2)) (3 / 2) passSignals
      [{ close_price := 5, signal := 1 }] [{ close_price := 5, signal := 1 }]
      (by simp) rfl⟩

/-! ## Force close at series end -/

/-- C5: if the row loop of `_execute_backtest` ends with an open long
position, the position is force-closed at the last close price with
slippage applied (`price × (1 − slippage)`) and commission applied to the
proceeds (`× (1 − commission)`); a final sell trade is appended and the
final balance is exactly that cash amount. -/
theorem execute_backtest_force_close (cfg : BTConfig) (df : List Row)
    (st : ExecState) (hst : st = df.foldl (btStep cfg) (btInit cfg))
    (hpos : st.position = 1) :
    (execute_backtest cfg df).trades
        = st.trades ++
            [{ type := "sell"
               price := lastClose df * (1 - cfg.slippage)
               balance := st.crypto_balance * (lastClose df * (1 - cfg.slippage))
                 * (1 - cfg.commission)
               crypto_balance := st.crypto_balance }]
      ∧ (execute_backtest cfg df).final_balance
        = st.crypto_balance * (lastClose df * (1 - cfg.slippage))
            * (1 - cfg.commission) := by
  subst hst
  simp only [execute_backtest, btFinish]
  rw [if_pos hpos]
  exact ⟨rfl, rfl⟩

/-- Witness for `execute_backtest_force_close`: a single buy row leaves
the position open; it is closed at the last price. -/
theorem execute_backtest_force_close_witness :
    (dfBuy.foldl (btStep cfg0) (btInit cfg0)).position = 1
      ∧ ((execute_backtest cfg0 dfBuy).trades
          = (dfBuy.foldl (btStep cfg0) (btInit cfg0)).trades
            ++ [{ type := "sell"
                  price := lastClose dfBuy * (1 - cfg0.slippage)
                  balance := (dfBuy.foldl (btStep cfg0) (btInit cfg0)).crypto_balance
                    * (lastClose dfBuy * (1 - cfg0.slippage)) * (1 - cfg0.commission)
                  crypto_balance := (dfBuy.foldl (btStep cfg0) (btInit cfg0)).crypto_balance }]
        ∧ (execute_backtest cfg0 dfBuy).final_balance
          = (dfBuy.foldl (btStep cfg0) (btInit cfg0)).crypto_balance
              * (lastClose dfBuy * (1 - cfg0.slippage)) * (1 - cfg0.commission)) :=
  ⟨by norm_num [dfBuy, cfg0, btInit, btStep],
    execute_backtest_force_close cfg0 dfBuy _ rfl
      (by norm_num [dfBuy, cfg0, btInit, btStep])⟩

/-! ## Profit factor -/

lemma roundTripPnls_cons2 (b s : Trade) (rest : List Trade) :
    roundTripPnls (b :: s :: rest)
      = (if b.type = "buy" ∧ s.type = "sell" then [s.balance - b.balance] else [])
        ++ roundTripPnls rest := by
  simp only [roundTripPnls, tradePairs, List.filterMap_cons]
  split_ifs <;> rfl

lemma grossProfitSpec_cons2 (b s : Trade) (rest : List Trade) :
    grossProfitSpec (b :: s :: rest)
      = (if b.type = "buy" ∧ s.type = "sell"
          then max (s.balance - b.balance) 0 else 0)
        + grossProfitSpec rest := by
  simp only [grossProfitSpec, roundTripPnls_cons2]
  split_ifs <;> simp

lemma grossLossSpec_cons2 (b s : Trade) (rest : List Trade) :
    grossLossSpec (b :: s :: rest)
      = (if b.type = "buy" ∧ s.type = "sell"
          then max (-(s.balance - b.balance)) 0 else 0)
        + grossLossSpec rest := by
  simp only [grossLossSpec, roundTripPnls_cons2]
  split_ifs <;> simp

lemma pfLoop_eq : ∀ (tr : List Trade) (gp gl : ℚ),
    pfLoop gp gl tr = (gp + grossProfitSpec tr, gl + grossLossSpec tr)
  | [], gp, gl => by
      simp [pfLoop, grossProfitSpec, grossLossSpec, roundTripPnls, tradePairs]
  | [t], gp, gl => by
      simp [pfLoop, grossProfitSpec, grossLossSpec, roundTripPnls, tradePairs]
  | b :: s :: rest, gp, gl => by
      rw [grossProfitSpec_cons2, grossLossSpec_cons2]
      simp only [pfLoop]
      split_ifs with hbs hpnl
      · rw [pfLoop_eq rest]
        have h1 : max (s.balance - b.balance) 0 = s.balance - b.balance :=
          max_eq_left hpnl.le
        have h2 : max (-(s.balance - b.balance)) 0 = 0 :=
          max_eq_right (by linarith)
        rw [h1, h2]
        refine Prod.ext ?_ ?_ <;> dsimp <;> ring
      · rw [pfLoop_eq rest]
        push_neg at hpnl
        have h1 : max (s.balance - b.balance) 0 = 0 := max_eq_right hpnl
        have h2 : max (-(s.balance - b.balance)) 0 = -(s.balance - b.balance) :=
          max_eq_left (by linarith)
        have h3 : |s.balance - b.balance| = -(s.balance - b.balance) :=
          abs_of_nonpos hpnl
        rw [h1, h2, h3]
        refine Prod.ext ?_ ?_ <;> dsimp <;> ring
      · rw [pfLoop_eq rest]
        refine Prod.ext ?_ ?_ <;> dsimp <;> ring

lemma grossLossSpec_nonneg (trades : List Trade) : 0 ≤ grossLossSpec trades := by
  apply List.sum_nonneg
  intro x hx
  simp only [List.mem_map] at hx
  obtain ⟨y, _, rfl⟩ := hx
  exact le_max_right _ _

lemma grossLossSpec_short (trades : List Trade) (h : trades.length < 2) :
    grossLossSpec trades = 0 := by
  match trades, h with
  | [], _ => rfl
  | [t], _ => rfl
  | a :: b :: l, h => simp only [List.length_cons] at h; omega

/-- C7: `calculate_profit_factor` returns gross profit divided by gross
loss over the buy→sell round-trip pairs, and returns exactly 0 — never an
error and never an infinity — whenever the gross loss is 0, including when
there are no losing round trips but positive gross profit. -/
theorem profit_factor_div_guard (trades : List Trade) :
    calculate_profit_factor trades
      = if grossLossSpec trades = 0 then 0
        else grossProfitSpec trades / grossLossSpec trades := by
  unfold calculate_profit_factor
  by_cases hlen : trades.length < 2
  · rw [if_pos hlen, grossLossSpec_short trades hlen, if_pos rfl]
  · rw [if_neg hlen, pfLoop_eq]
    simp only [zero_add]
    by_cases hgl : grossLossSpec trades = 0
    · rw [if_pos hgl, if_neg (by rw [hgl]; exact lt_irrefl 0)]
    · rw [if_neg hgl,
        if_pos (lt_of_le_of_ne (grossLossSpec_nonneg trades) (Ne.symm hgl))]

/-! ## Trade-list alternation -/

/-- The kind expected after a prefix of length `n` when the expectation at
the front is `b` (alternating every element). -/
def nextExp (b : Bool) (n : Nat) : Bool := if n % 2 = 0 then b else !b

lemma altKinds_snoc (tr : List Trade) : ∀ (b : Bool) (t : Trade),
    altKinds b (tr ++ [t])
      = (altKinds b tr
          && decide (t.type = if nextExp b tr.length then "buy" else "sell")) := by
  induction tr with
  | nil =>
      intro b t
      simp [altKinds, nextExp]
  | cons t0 tr ih =>
      intro b t
      have hexp : nextExp b (tr.length + 1) = nextExp (!b) tr.length := by
        unfold nextExp
        rcases Nat.even_or_odd tr.length with h | h
        · have h0 : tr.length % 2 = 0 := Nat.even_iff.mp h
          have h1 : (tr.length + 1) % 2 = 1 := by omega
          simp [h0, h1]
        · have h0 : tr.length % 2 = 1 := Nat.odd_iff.mp h
          have h1 : (tr.length + 1) % 2 = 0 := by omega
          simp [h0, h1]
      rw [List.cons_append]
      simp only [altKinds]
      rw [ih (!b) t]
      simp only [List.length_cons, hexp, Bool.and_assoc]

/-! Branch equations for `btStep`. -/

lemma btStep_buy (cfg : BTConfig) (st : ExecState) (row : Row)
    (hsig : row.signal = 1) (hpos : st.position = 0) (hbal : st.balance > 0) :
    btStep cfg st row =
      { balance := 0
        crypto_balance := st.balance * (1 - cfg.commission)
          / (row.close_price * (1 + cfg.slippage))
        position := 1
        trades := st.trades ++
          [{ type := "buy"
             price := row.close_price * (1 + cfg.slippage)
             balance := st.balance
             crypto_balance := st.balance * (1 - cfg.commission)
               / (row.close_price * (1 + cfg.slippage)) }]
        equity_curve := st.equity_curve ++ [st.balance] } := by
  simp only [btStep]
  rw [if_neg (show ¬st.position = 1 by rw [hpos]; omega),
    if_pos (show row.signal = 1 ∧ st.position = 0 from ⟨hsig, hpos⟩),
    if_pos hbal]

lemma btStep_buy_skip (cfg : BTConfig) (st : ExecState) (row : Row)
    (hsig : row.signal = 1) (hpos : st.position = 0) (hbal : ¬st.balance > 0) :
    btStep cfg st row = { st with equity_curve := st.equity_curve ++ [st.balance] } := by
  simp only [btStep]
  rw [if_neg (show ¬st.position = 1 by rw [hpos]; omega),
    if_pos (show row.signal = 1 ∧ st.position = 0 from ⟨hsig, hpos⟩),
    if_neg hbal]

lemma btStep_sell (cfg : BTConfig) (st : ExecState) (row : Row)
    (hsig : row.signal = -1) (hpos : st.position = 1)
    (hcb : st.crypto_balance > 0) :
    btStep cfg st row =
      { balance := st.crypto_balance * (row.close_price * (1 - cfg.slippage))
          * (1 - cfg.commission)
        crypto_balance := 0
        position := 0
        trades := st.trades ++
          [{ type := "sell"
             price := row.close_price * (1 - cfg.slippage)
             balance := st.crypto_balance * (row.close_price * (1 - cfg.slippage))
               * (1 - cfg.commission)
             crypto_balance := st.crypto_balance }]
        equity_curve := st.equity_curve
          ++ [st.crypto_balance * row.close_price] } := by
  simp only [btStep]
  rw [if_pos hpos,
    if_neg (show ¬(row.signal = 1 ∧ st.position = 0) by rw [hsig, hpos]; omega),
    if_pos (show row.signal = -1 ∧ st.position = 1 from ⟨hsig, hpos⟩),
    if_pos hcb]

lemma btStep_sell_skip (cfg : BTConfig) (st : ExecState) (row : Row)
    (hsig : row.signal = -1) (hpos : st.position = 1)
    (hcb : ¬st.crypto_balance > 0) :
    btStep cfg st row = { st with equity_curve := st.equity_curve
      ++ [st.crypto_balance * row.close_price] } := by
  simp only [btStep]
  rw [if_pos hpos,
    if_neg (show ¬(row.signal = 1 ∧ st.position = 0) by rw [hsig, hpos]; omega),
    if_pos (show row.signal = -1 ∧ st.position = 1 from ⟨hsig, hpos⟩),
    if_neg hcb]

lemma btStep_no_signal (cfg : BTConfig) (st : ExecState) (row : Row)
    (h1 : ¬(row.signal = 1 ∧ st.position = 0))
    (h2 : ¬(row.signal = -1 ∧ st.position = 1)) :
    btStep cfg st row = { st with equity_curve := st.equity_curve
      ++ [if st.position = 1 then st.crypto_balance * row.close_price
          else st.balance] } := by
  simp only [btStep]
  rw [if_neg h1, if_neg h2]

/-- The loop invariant of `_execute_backtest`: the trades list alternates
starting with a buy, and its parity matches the position flag. -/
def btInv (st : ExecState) : Prop :=
  altKinds true st.trades = true
    ∧ st.trades.length % 2 = (if st.position = 1 then 1 else 0)

lemma btStep_inv (cfg : BTConfig) (st : ExecState) (row : Row)
    (h : btInv st) : btInv (btStep cfg st row) := by
  obtain ⟨h1, h2⟩ := h
  by_cases hb : row.signal = 1 ∧ st.position = 0
  · by_cases hbal : st.balance > 0
    · rw [btStep_buy cfg st row hb.1 hb.2 hbal]
      rw [hb.2] at h2
      simp only [if_neg (by omega : ¬(0:Nat) = 1)] at h2
      constructor
      · dsimp only
        rw [altKinds_snoc, h1]
        simp [nextExp, h2]
      · dsimp only
        simp only [List.length_append, List.length_singleton]
        norm_num
        omega
    · rw [btStep_buy_skip cfg st row hb.1 hb.2 hbal]
      exact ⟨h1, h2⟩
  · by_cases hs : row.signal = -1 ∧ st.position = 1
    · by_cases hcb : st.crypto_balance > 0
      · rw [btStep_sell cfg st row hs.1 hs.2 hcb]
        rw [hs.2] at h2
        rw [show (if (1:Nat) = 1 then (1:Nat) else 0) = 1 by norm_num] at h2
        constructor
        · dsimp only
          rw [altKinds_snoc, h1]
          simp [nextExp, h2]
        · dsimp only
          simp only [List.length_append, List.length_singleton]
          rw [show (if (0:Nat) = 1 then (1:Nat) else 0) = 0 by norm_num]
          omega
      · rw [btStep_sell_skip cfg st row hs.1 hs.2 hcb]
        exact ⟨h1, h2⟩
    · rw [btStep_no_signal cfg st row hb hs]
      exact ⟨h1, h2⟩

lemma foldl_btStep_inv (cfg : BTConfig) (df : List Row) :
    ∀ st : ExecState, btInv st → btInv (df.foldl (btStep cfg) st) := by
  induction df with
  | nil => intro st h; exact h
  | cons r rs ih =>
      intro st h
      rw [List.foldl_cons]
      exact ih _ (btStep_inv cfg st r h)

lemma execute_backtest_inv (cfg : BTConfig) (df : List Row) :
    altKinds true (execute_backtest cfg df).trades = true
      ∧ (execute_backtest cfg df).trades.length % 2 = 0 := by
  have hinit : btInv (btInit cfg) := by
    constructor
    · rfl
    · simp [btInit]
  have h := foldl_btStep_inv cfg df (btInit cfg) hinit
  obtain ⟨h1, h2⟩ := h
  unfold execute_backtest btFinish
  by_cases hpos : (df.foldl (btStep cfg) (btInit cfg)).position = 1
  · rw [if_pos hpos]
    rw [hpos, if_pos rfl] at h2
    constructor
    · dsimp only
      rw [altKinds_snoc, h1]
      simp [nextExp, h2]
    · dsimp only
      simp only [List.length_append, List.length_singleton]
      omega
  · rw [if_neg hpos]
    rw [if_neg hpos] at h2
    exact ⟨h1, h2⟩

lemma alt_even_facts : ∀ tr : List Trade,
    altKinds true tr = true → tr.length % 2 = 0 →
      (∀ p ∈ tradePairs tr, p.1.type = "buy" ∧ p.2.type = "sell")
        ∧ tr.length = 2 * (tradePairs tr).length
        ∧ (∀ t ∈ tr.head?, t.type = "buy")
        ∧ (∀ t ∈ tr.getLast?, t.type = "sell")
  | [] => by
      intro _ _
      refine ⟨?_, rfl, ?_, ?_⟩ <;> simp [tradePairs]
  | [t] => by
      intro _ h2
      simp at h2
  | b :: s :: rest => by
      intro h1 h2
      simp only [altKinds, Bool.and_eq_true, decide_eq_true_eq, if_true,
        Bool.not_true, if_false] at h1
      obtain ⟨hb, hs, hrest⟩ := h1
      have h2' : rest.length % 2 = 0 := by
        simp only [List.length_cons] at h2; omega
      obtain ⟨ihp, ihl, _, ihlast⟩ := alt_even_facts rest hrest h2'
      refine ⟨?_, ?_, ?_, ?_⟩
      · intro p hp
        simp only [tradePairs, List.mem_cons] at hp
        rcases hp with rfl | hp
        · exact ⟨hb, hs⟩
        · exact ihp p hp
      · simp only [tradePairs, List.length_cons, ihl]
        ring
      · intro t ht
        simp only [List.head?_cons, Option.mem_def, Option.some.injEq] at ht
        rw [← ht]
        exact hb
      · cases rest with
        | nil =>
            intro t ht
            simp only [List.getLast?_cons_cons, List.getLast?_singleton,
              Option.mem_def, Option.some.injEq] at ht
            rw [← ht]
            exact hs
        | cons r rs =>
            intro t ht
            rw [List.getLast?_cons_cons, List.getLast?_cons_cons] at ht
            exact ihlast t ht

/-- C10: every trades list produced by `_execute_backtest` strictly
alternates buy, sell, buy, sell, ..., starts with a buy, has even length
and, when non-empty, ends with a sell; consequently the fixed even-index
pairing of the metrics loops covers the whole list and every pair it
visits is a buy followed by its sell — no round trip is skipped. -/
theorem backtest_trades_alternate (cfg : BTConfig) (df : List Row)
    (tr : List Trade) (htr : tr = (execute_backtest cfg df).trades) :
    altKinds true tr = true
      ∧ tr.length % 2 = 0
      ∧ (∀ p ∈ tradePairs tr, p.1.type = "buy" ∧ p.2.type = "sell")
      ∧ tr.length = 2 * (tradePairs tr).length
      ∧ (∀ t ∈ tr.head?, t.type = "buy")
      ∧ (∀ t ∈ tr.getLast?, t.type = "sell") := by
  subst htr
  obtain ⟨h1, h2⟩ := execute_backtest_inv cfg df
  obtain ⟨f1, f2, f3, f4⟩ := alt_even_facts _ h1 h2
  exact ⟨h1, h2, f1, f2, f3, f4⟩

/-- Witness for `backtest_trades_alternate` on a buy-then-sell frame. -/
theorem backtest_trades_alternate_witness :
    altKinds true (execute_backtest cfg0 dfBuySell).trades = true
      ∧ (execute_backtest cfg0 dfBuySell).trades.length % 2 = 0
      ∧ (∀ p ∈ tradePairs (execute_backtest cfg0 dfBuySell).trades,
          p.1.type = "buy" ∧ p.2.type = "sell")
      ∧ (execute_backtest cfg0 dfBuySell).trades.length
          = 2 * (tradePairs (execute_backtest cfg0 dfBuySell).trades).length
      ∧ (∀ t ∈ (execute_backtest cfg0 dfBuySell).trades.head?, t.type = "buy")
      ∧ (∀ t ∈ (execute_backtest cfg0 dfBuySell).trades.getLast?, t.type = "sell") :=
  backtest_trades_alternate cfg0 dfBuySell _ rfl

/-! ## Round trip with zero costs -/

lemma foldl_signal0 (cfg : BTConfig) (rows : List Row) :
    ∀ st : ExecState, (∀ r ∈ rows, r.signal = 0) →
      (rows.foldl (btStep cfg) st).balance = st.balance
        ∧ (rows.foldl (btStep cfg) st).crypto_balance = st.crypto_balance
        ∧ (rows.foldl (btStep cfg) st).position = st.position
        ∧ (rows.foldl (btStep cfg) st).trades = st.trades := by
  induction rows with
  | nil => intro st _; exact ⟨rfl, rfl, rfl, rfl⟩
  | cons r rs ih =>
      intro st hr
      have hr0 : r.signal = 0 := hr r (List.mem_cons_self r rs)
      rw [List.foldl_cons,
        btStep_no_signal cfg st r (by rw [hr0]; omega) (by rw [hr0]; omega)]
      exact ih _ (fun x hx => hr x (List.mem_cons_of_mem r hx))

/-- C4: with zero commission and zero slippage, a signal series holding
exactly one buy (at price `pb`) followed later by exactly one sell (at
price `ps`), and no other signals, produces exactly two trades and a final
balance of exactly `initial_balance × (ps / pb)`. -/
theorem backtest_round_trip (cfg : BTConfig) (pb ps : ℚ) (A B C : List Row)
    (hcomm : cfg.commission = 0) (hslip : cfg.slippage = 0)
    (hib : 0 < cfg.initial_balance) (hpb : 0 < pb)
    (hA : ∀ r ∈ A, r.signal = 0) (hB : ∀ r ∈ B, r.signal = 0)
    (hC : ∀ r ∈ C, r.signal = 0) :
    (execute_backtest cfg (A ++ { close_price := pb, signal := 1 }
        :: (B ++ { close_price := ps, signal := -1 } :: C))).final_balance
        = cfg.initial_balance * (ps / pb)
      ∧ (execute_backtest cfg (A ++ { close_price := pb, signal := 1 }
          :: (B ++ { close_price := ps, signal := -1 } :: C))).num_trades = 2 := by
  have hpb' : pb ≠ 0 := ne_of_gt hpb
  obtain ⟨a1, a2, a3, a4⟩ := foldl_signal0 cfg A (btInit cfg) hA
  have hbal1 : (List.foldl (btStep cfg) (btInit cfg) A).balance > 0 := by
    rw [a1]; exact hib
  have hpos2 : (List.foldl (btStep cfg)
      (btStep cfg (List.foldl (btStep cfg) (btInit cfg) A)
        { close_price := pb, signal := 1 }) B).position = 1 := by
    rw [(foldl_signal0 cfg B _ hB).2.2.1,
      btStep_buy cfg _ { close_price := pb, signal := 1 } rfl a3 hbal1]
  have hcb2 : (List.foldl (btStep cfg)
      (btStep cfg (List.foldl (btStep cfg) (btInit cfg) A)
        { close_price := pb, signal := 1 }) B).crypto_balance > 0 := by
    rw [(foldl_signal0 cfg B _ hB).2.1,
      btStep_buy cfg _ { close_price := pb, signal := 1 } rfl a3 hbal1]
    dsimp only
    rw [a1, hcomm, hslip]
    have hinit : (btInit cfg).balance = cfg.initial_balance := rfl
    rw [hinit]
    norm_num
    exact div_pos hib hpb
  have hpos3 : ¬(List.foldl (btStep cfg)
      (btStep cfg (List.foldl (btStep cfg)
        (btStep cfg (List.foldl (btStep cfg) (btInit cfg) A)
          { close_price := pb, signal := 1 }) B)
        { close_price := ps, signal := -1 }) C).position = 1 := by
    rw [(foldl_signal0 cfg C _ hC).2.2.1,
      btStep_sell cfg _ { close_price := ps, signal := -1 } rfl hpos2 hcb2]
    dsimp only
    omega
  constructor
  · simp only [execute_backtest, List.foldl_append, List.foldl_cons, btFinish]
    rw [if_neg hpos3]
    rw [(foldl_signal0 cfg C _ hC).1,
      btStep_sell cfg _ { close_price := ps, signal := -1 } rfl hpos2 hcb2]
    dsimp only
    rw [(foldl_signal0 cfg B _ hB).2.1,
      btStep_buy cfg _ { close_price := pb, signal := 1 } rfl a3 hbal1]
    dsimp only
    rw [a1, hcomm, hslip]
    have hinit : (btInit cfg).balance = cfg.initial_balance := rfl
    rw [hinit]
    field_simp
  · simp only [execute_backtest, List.foldl_append, List.foldl_cons, btFinish]
    rw [if_neg hpos3]
    rw [(foldl_signal0 cfg C _ hC).2.2.2,
      btStep_sell cfg _ { close_price := ps, signal := -1 } rfl hpos2 hcb2]
    dsimp only
    rw [(foldl_signal0 cfg B _ hB).2.2.2,
      btStep_buy cfg _ { close_price := pb, signal := 1 } rfl a3 hbal1]
    dsimp only
    rw [a4]
    have hinit : (btInit cfg).trades = [] := rfl
    rw [hinit]
    simp

/-- Witness for `backtest_round_trip`: buy at 10, sell at 20, no other
rows, with the zero-cost configuration. -/
theorem backtest_round_trip_witness :
    (execute_backtest cfg0 ([] ++ { close_price := 10, signal := 1 }
        :: ([] ++ { close_price := 20, signal := -1 } :: []))).final_balance
        = cfg0.initial_balance * (20 / 10)
      ∧ (execute_backtest cfg0 ([] ++ { close_price := 10, signal := 1 }
          :: ([] ++ { close_price := 20, signal := -1 } :: []))).num_trades = 2 :=
  backtest_round_trip cfg0 10 20 [] [] [] rfl rfl (by norm_num [cfg0])
    (by norm_num) (by simp) (by simp) (by simp)

end PersonalInvestments
